import Mathlib

/-!
# Verification of the AWS subnet IP-usage reconciliation engine

Shallow embedding of `aws_subnet_usage.py` (second, fuller variant of the
script: classes and helpers starting at the `#cld` marker).  Python strings
are modelled as `List Char`, Python dicts as association lists with
replace-on-insert semantics, network addresses as natural numbers, and the
AWS API collectors as explicit inputs (`Except Unit _` where the Python code
may see a raised `ClientError`).
-/

namespace AwsSubnetUsage

/-- Python strings are modelled as lists of characters. -/
abbrev Str := List Char

/-- Embed a Lean string literal as a `Str`. -/
def str (s : String) : Str := s.data

/-- `startsW pat s` is Python's `s.startswith(pat)` (also the anchored-at-start
regex test). -/
def startsW : Str → Str → Bool
  | [], _ => true
  | _ :: _, [] => false
  | a :: as, b :: bs => (a == b) && startsW as bs

/-- `containsSub needle hay` is Python's `needle in hay` substring test. -/
def containsSub (needle : Str) : Str → Bool
  | [] => needle.isEmpty
  | c :: rest => startsW needle (c :: rest) || containsSub needle rest

/-- Python's `s.split(c)` for a one-character separator. -/
def splitOn (c : Char) : Str → List Str
  | [] => [[]]
  | b :: rest =>
    if b = c then [] :: splitOn c rest
    else
      match splitOn c rest with
      | [] => [[b]]
      | t :: ts => (b :: t) :: ts

/-- `ELB_MAX_IPS = 8` from the source. -/
def ELB_MAX_IPS : Nat := 8

/-- Character class `[a-f0-9]` of `ENI_ELB_RE`. -/
def isEniHexChar (c : Char) : Bool :=
  (('a' ≤ c) && (c ≤ 'f')) || (('0' ≤ c) && (c ≤ '9'))

/-- `ENI_ELB_RE = re.compile(r'^eni-[a-f0-9]+ / ELB (.+)$')`: returns the
captured group 1 on a match, `none` otherwise. -/
def elbReMatch (s : Str) : Option Str :=
  if startsW (str "eni-") s then
    let t := s.drop 4
    let hex := t.takeWhile isEniHexChar
    let u := t.dropWhile isEniHexChar
    if hex.isEmpty then none
    else if startsW (str " / ELB ") u then
      let name := u.drop 7
      if name.isEmpty then none else some name
    else none
  else none

/-- `ENI_NLB_RE = re.compile(r'^ELB net/([^/]+)/.*$')`: returns the captured
group 1 (the NLB name) on a match, `none` otherwise. -/
def nlbReMatch (s : Str) : Option Str :=
  if startsW (str "ELB net/") s then
    let t := s.drop 8
    let name := t.takeWhile (fun c => c ≠ '/')
    let rest := t.dropWhile (fun c => c ≠ '/')
    if name.isEmpty then none
    else
      match rest with
      | [] => none
      | _ :: _ => some name
  else none

/-- A Python dict (insertion ordered, unique keys) modelled as an association
list built with replace-on-insert. -/
abbrev Dict := List (Str × Str)

/-- Dict lookup (`d[k]` / `d.get(k)`): first entry whose key matches. -/
def dlookup : Dict → Str → Option Str
  | [], _ => none
  | p :: rest, k => if p.1 = k then some p.2 else dlookup rest k

/-- Dict single-key assignment `d[k] = v`: replaces the value in place when
the key is present, appends otherwise. -/
def dinsert (d : Dict) (k v : Str) : Dict :=
  if d.any (fun p => p.1 == k) then
    d.map (fun p => if p.1 = k then (k, v) else p)
  else d ++ [(k, v)]

/-- Python's `d.update(entries)`: assign every entry of `entries` into `d`,
later entries winning. -/
def dupdate (d : Dict) (entries : List (Str × Str)) : Dict :=
  entries.foldl (fun acc p => dinsert acc p.1 p.2) d

/-- The keys of a dict, in order. -/
def dkeys (d : Dict) : List Str := d.map (fun p => p.1)

/-- Python's `d.values()`. -/
def dvalues (d : Dict) : List Str := d.map (fun p => p.2)

/-- The dict invariant: every address key occurs at most once. -/
abbrev keysNodup (d : Dict) : Prop := (dkeys d).Nodup

/-- A network interface as returned by the EC2 collector
(`ec2_res.network_interfaces`): id, free-text description, owning subnet and
its private IP addresses. -/
structure Eni where
  id : Str
  description : Str
  subnetId : Str
  privateIps : List Str
  deriving DecidableEq

/-- `_find_used_eni`: builds the address → "<eni-id> / <description>" holder
map from the interfaces of the target subnet. -/
def findUsedEni (enis : List Eni) (sid : Str) : Dict :=
  (enis.filter (fun e => e.subnetId == sid)).foldl
    (fun d e =>
      e.privateIps.foldl (fun d' ip => dinsert d' ip (e.id ++ str " / " ++ e.description)) d)
    []

/-- The `elbnames` set of `_handle_elbs`: distinct group-1 captures of
`ENI_ELB_RE` over the holder descriptors. -/
def elbNames (ips : Dict) : List Str :=
  (ips.filterMap (fun p => elbReMatch p.2)).eraseDups

/-- The `curr_ips` accumulation of `_handle_elbs`: for each ELB name, the
number of ENIs in the subnet whose description is exactly `"ELB <name>"`. -/
def elbCurrOf (enis : List Eni) (sid : Str) : List Str → Nat
  | [] => 0
  | n :: rest =>
    (enis.filter (fun e => (e.description == str "ELB " ++ n) && (e.subnetId == sid))).length
      + elbCurrOf enis sid rest

/-- The `max_ips` accumulation of `_handle_elbs`: `ELB_MAX_IPS` per name. -/
def elbMaxOf : List Str → Nat
  | [] => 0
  | _ :: rest => ELB_MAX_IPS + elbMaxOf rest

/-- `_handle_elbs(used_ips, subnet_id)`: returns
(number of ELBs, current IPs, maximum IPs). -/
def handleElbs (ips : Dict) (enis : List Eni) (sid : Str) : Nat × Nat × Nat :=
  let names := elbNames ips
  (names.length, elbCurrOf enis sid names, elbMaxOf names)

/-- A load balancer as returned by `describe_load_balancers`. -/
structure Nlb where
  name : Str
  arn : Str
  typ : Str
  zoneSubnets : List Str
  deriving DecidableEq

/-- The load balancers `_handle_nlbs` acts on: type `network` and the target
subnet among their availability-zone subnets. -/
def nlbRelevant (lbs : List Nlb) (sid : Str) : List Nlb :=
  lbs.filter (fun lb => (lb.typ == str "network") && lb.zoneSubnets.contains sid)

/-- `nlb_ips` of `_handle_nlbs`: holder records whose descriptor contains the
load-balancer name as a substring. -/
def nlbCountIps (ips : Dict) (name : Str) : Nat :=
  (ips.filter (fun p => containsSub name p.2)).length

/-- The `curr_ips` accumulation of `_handle_nlbs`: the substring count, with a
fallback of 1 when the NLB is in the subnet but no descriptor matched. -/
def nlbCurrOf (ips : Dict) : List Nlb → Nat
  | [] => 0
  | lb :: rest =>
    (if nlbCountIps ips lb.name > 0 then nlbCountIps ips lb.name else 1) + nlbCurrOf ips rest

/-- The `max_ips` accumulation of `_handle_nlbs`: `ELB_MAX_IPS` per NLB. -/
def nlbMaxOf : List Nlb → Nat
  | [] => 0
  | _ :: rest => ELB_MAX_IPS + nlbMaxOf rest

/-- `_handle_nlbs(used_ips, subnet_id)`: the whole paginated query is wrapped
in `try/except ClientError`, so a collector error degrades to zero counts.
Returns (number of distinct NLB ARNs, current IPs, maximum IPs). -/
def handleNlbs (ips : Dict) (sid : Str) (res : Except Unit (List Nlb)) : Nat × Nat × Nat :=
  match res with
  | .error _ => (0, 0, 0)
  | .ok lbs =>
    let rel := nlbRelevant lbs sid
    (((rel.map (fun lb => lb.arn)).eraseDups).length, nlbCurrOf ips rel, nlbMaxOf rel)

/-- An autoscaling group as returned by `describe_auto_scaling_groups`:
the comma-separated `VPCZoneIdentifier`, member instance ids, `MaxSize`. -/
structure Asg where
  vpcZoneIdentifier : Str
  instances : List Str
  maxSize : Nat
  deriving DecidableEq

/-- `_handle_asgs(used_ips, subnet_id, ec2_ip_to_id)`: skips groups whose
`VPCZoneIdentifier` subnet list does not contain the target subnet; per kept
group, counts members present among the instance holder values and adds
`MaxSize - len(Instances)` (a Python int, hence `ℤ`) to the maximum.
Returns (ASG count, current instances, maximum additional instances). -/
def handleAsgs (sid : Str) (ids : List Str) : List Asg → Nat × ℤ × ℤ
  | [] => (0, 0, 0)
  | asg :: rest =>
    let acc := handleAsgs sid ids rest
    if (splitOn ',' asg.vpcZoneIdentifier).contains sid then
      (acc.1 + 1,
       acc.2.1 + ((asg.instances.filter (fun i => ids.contains i)).length : ℤ),
       acc.2.2 + ((asg.maxSize : ℤ) - (asg.instances.length : ℤ)))
    else acc

/-- `key.split('/')[-1]` used for `kubernetes.io/cluster/<name>` tag keys. -/
def lastSegment (s : Str) : Str := (splitOn '/' s).getLastD []

/-- The cluster-name extraction of `_handle_eks`: the `eks:cluster-name` tag
value, else the suffix of the first `kubernetes.io/cluster/` tag key. -/
def eksClusterName (tags : List (Str × Str)) : Option Str :=
  match tags.find? (fun t => t.1 == str "eks:cluster-name") with
  | some t => some t.2
  | none =>
    match tags.find? (fun t => startsW (str "kubernetes.io/cluster/") t.1) with
    | some t => some (lastSegment t.1)
    | none => none

/-- `_handle_eks`: counts in-subnet instances with a truthy EKS cluster name;
the instance-details query is wrapped in `try/except ClientError`. -/
def eksCountOf (res : Except Unit (List (List (Str × Str)))) : Nat :=
  match res with
  | .error _ => 0
  | .ok insts =>
    insts.countP (fun tags =>
      match eksClusterName tags with
      | some n => !n.isEmpty
      | none => false)

/-- `_ips_for_subnet`: `IPNetwork(cidr)[4:-1]` — all addresses of the block
(network address `base`, prefix length `p`), dropping the first four and the
last one.  Addresses are modelled as naturals. -/
def ipsForSubnet (base p : Nat) : List Nat :=
  (((List.range (2 ^ (32 - p))).map (fun i => base + i)).drop 4).dropLast

/-- The resolved target subnet (`_find_subnet` result): id, network address
and prefix length of its CIDR block, and `AvailableIpAddressCount`. -/
structure SubnetInfo where
  id : Str
  base : Nat
  prefixLen : Nat
  availIps : Nat
  deriving DecidableEq

/-- The values printed by `show_subnet_usage`, gathered as one record. -/
structure Report where
  totalUsable : Nat
  used : Nat
  elb : Nat × Nat × Nat
  nlb : Nat × Nat × Nat
  asg : Nat × ℤ × ℤ
  eksCount : Nat
  driftWarning : Bool
  totalMax : ℤ
  deriving DecidableEq

/-- `show_subnet_usage` over frozen collector outputs: merges the interface
and instance holder maps (instance wins), runs the four handlers and builds
the report.  Only the NLB and EKS queries are guarded by `try/except`; an
autoscaling collector error propagates. -/
def showSubnetUsage (subnet : SubnetInfo) (enis : List Eni) (ec2Ips : Dict)
    (asgRes : Except Unit (List Asg)) (nlbRes : Except Unit (List Nlb))
    (eksRes : Except Unit (List (List (Str × Str)))) : Except Unit Report :=
  let ips := ipsForSubnet subnet.base subnet.prefixLen
  let eniIps := findUsedEni enis subnet.id
  let usedIps := dupdate eniIps ec2Ips
  let elb := handleElbs usedIps enis subnet.id
  let nlb := handleNlbs usedIps subnet.id nlbRes
  match asgRes with
  | .error e => .error e
  | .ok asgs =>
    let asg := handleAsgs subnet.id (dvalues ec2Ips) asgs
    let eks := eksCountOf eksRes
    let used := usedIps.length
    .ok {
      totalUsable := ips.length
      used := used
      elb := elb
      nlb := nlb
      asg := asg
      eksCount := eks
      driftWarning := decide ((used : ℤ) ≠ (ips.length : ℤ) - (subnet.availIps : ℤ))
      totalMax := (used : ℤ) + (elb.2.2 : ℤ) + (nlb.2.2 : ℤ) + asg.2.2 }

/-- Modelled from the spec: "`theoretical_maximum_total` = `used +
Σ(group.maximum)`, where each `group.maximum` is defined as *additional*
headroom (not an absolute cap)" — per §4.3 a load balancer's capacity is the
per-LB cap `ELB_MAX_IPS`, so its *additional* headroom is that cap minus its
current count; the ASG maximum of the code is already headroom.  (No managed
node group is present in the inputs compared below, so no node-group term is
needed.)  This definition follows the spec's words, for comparison with the
`totalMax` the code computes. -/
def specTotalMaxHeadroom (r : Report) : ℤ :=
  (r.used : ℤ)
    + ((ELB_MAX_IPS : ℤ) * (r.elb.1 : ℤ) - (r.elb.2.1 : ℤ))
    + ((ELB_MAX_IPS : ℤ) * (r.nlb.1 : ℤ) - (r.nlb.2.1 : ℤ))
    + r.asg.2.2

/-! ### Concrete inputs used by examples, witnesses and counterexamples -/

/-- The target subnet id of the concrete scenarios. -/
def exSid : Str := str "subnet-1"

/-- The two classic-ELB interfaces of the spec's scenario: holder records
`{A: "eni-1 / ELB myelb", B: "eni-2 / ELB myelb"}`. -/
def exElbEnis : List Eni :=
  [⟨str "eni-1", str "ELB myelb", exSid, [str "10.0.0.1"]⟩,
   ⟨str "eni-2", str "ELB myelb", exSid, [str "10.0.0.2"]⟩]

/-- The holder-record map those two interfaces produce. -/
def exElbIps : Dict := findUsedEni exElbEnis exSid

/-- A concrete resolved subnet: a `/26` block with 50 addresses reported
available by the metadata. -/
def exSubnet : SubnetInfo := ⟨exSid, 0, 26, 50⟩

/-- The spec's ASG scenario: `max_size=5`, two members, both in-subnet. -/
def exAsg : Asg := ⟨str "subnet-1,subnet-2", [str "i-1", str "i-2"], 5⟩

/-- A network load balancer attached to the target subnet. -/
def exNlb : Nlb := ⟨str "mynlb", str "arn-1", str "network", [exSid]⟩

/-! ### Helper lemmas: fixed-constant accumulations -/

theorem elbMaxOf_eq (l : List Str) : elbMaxOf l = ELB_MAX_IPS * l.length := by
  induction l with
  | nil => rfl
  | cons n rest ih => rw [elbMaxOf, ih, List.length_cons]; ring

theorem nlbMaxOf_eq (l : List Nlb) : nlbMaxOf l = ELB_MAX_IPS * l.length := by
  induction l with
  | nil => rfl
  | cons lb rest ih => rw [nlbMaxOf, ih, List.length_cons]; ring

theorem nlbCurrOf_eq_sum (ips : Dict) (lbs : List Nlb) :
    nlbCurrOf ips lbs =
      (lbs.map (fun lb => if nlbCountIps ips lb.name > 0 then nlbCountIps ips lb.name else 1)).sum := by
  induction lbs with
  | nil => rfl
  | cons lb rest ih => rw [nlbCurrOf, ih, List.map_cons, List.sum_cons]

theorem handleAsgs_eq (sid : Str) (ids : List Str) (asgs : List Asg) :
    handleAsgs sid ids asgs =
      ((asgs.filter (fun a => (splitOn ',' a.vpcZoneIdentifier).contains sid)).length,
       ((asgs.filter (fun a => (splitOn ',' a.vpcZoneIdentifier).contains sid)).map
          (fun a => ((a.instances.filter (fun i => ids.contains i)).length : ℤ))).sum,
       ((asgs.filter (fun a => (splitOn ',' a.vpcZoneIdentifier).contains sid)).map
          (fun a => (a.maxSize : ℤ) - (a.instances.length : ℤ))).sum) := by
  induction asgs with
  | nil => rfl
  | cons a rest ih =>
    cases hc : (splitOn ',' a.vpcZoneIdentifier).contains sid with
    | false =>
      have hm : ¬ sid ∈ splitOn ',' a.vpcZoneIdentifier := by simpa using hc
      simp [handleAsgs, List.filter_cons, hc, hm, ih]
    | true =>
      have hm : sid ∈ splitOn ',' a.vpcZoneIdentifier := by simpa using hc
      simp [handleAsgs, List.filter_cons, hc, hm, ih, Prod.ext_iff]
      constructor <;> ring

/-! ### Helper lemmas: the address-space slice -/

theorem range_slice (k : Nat) :
    ((List.range (k + 5)).drop 4).dropLast = (List.range k).map (fun i => 4 + i) := by
  have h1 : List.range (k + 5) = List.range 4 ++ (List.range (k + 1)).map (fun x => 4 + x) := by
    rw [show k + 5 = 4 + (k + 1) by omega, List.range_add]
  rw [h1]
  have h2 := List.drop_left (List.range 4) ((List.range (k + 1)).map (fun x => 4 + x))
  simp only [List.length_range] at h2
  rw [h2, List.range_succ, List.map_append]
  simp only [List.map_cons, List.map_nil]
  rw [List.dropLast_concat]

theorem ipsForSubnet_eq (base p : Nat) (h : p ≤ 27) :
    ipsForSubnet base p = (List.range (2 ^ (32 - p) - 5)).map (fun i => base + 4 + i) := by
  have h5 : 5 ≤ 2 ^ (32 - p) := by
    calc (5 : Nat) ≤ 2 ^ 5 := by norm_num
    _ ≤ 2 ^ (32 - p) := Nat.pow_le_pow_right (by norm_num) (by omega)
  obtain ⟨k, hk⟩ : ∃ k, 2 ^ (32 - p) = k + 5 := ⟨2 ^ (32 - p) - 5, by omega⟩
  unfold ipsForSubnet
  rw [hk, ← List.map_drop, ← List.map_dropLast, range_slice k, List.map_map]
  have hfun : ((fun i => base + i) ∘ fun i => 4 + i) = fun i => base + 4 + i := by
    funext i; simp [Function.comp]; omega
  rw [hfun, show k + 5 - 5 = k by omega]

/-! ### Helper lemmas: dict semantics (replace-on-insert, later update wins) -/

theorem dlookup_map_assign_self (d : Dict) (k v : Str)
    (h : d.any (fun p => p.1 == k) = true) :
    dlookup (d.map (fun p => if p.1 = k then (k, v) else p)) k = some v := by
  induction d with
  | nil => simp at h
  | cons p rest ih =>
    by_cases hp : p.1 = k
    · simp [dlookup, hp]
    · have h' : rest.any (fun p => p.1 == k) = true := by
        simp [List.any_cons, hp] at h
        simpa using h
      simp [dlookup, hp, ih h']

theorem dlookup_map_assign_ne (d : Dict) (k v k' : Str) (h : k' ≠ k) :
    dlookup (d.map (fun p => if p.1 = k then (k, v) else p)) k' = dlookup d k' := by
  induction d with
  | nil => rfl
  | cons p rest ih =>
    by_cases hp : p.1 = k
    · have h1 : ¬ (k = k') := fun he => h he.symm
      have h2 : ¬ (p.1 = k') := by rw [hp]; exact h1
      simp only [List.map_cons, if_pos hp, dlookup, if_neg h1, if_neg h2]
      exact ih
    · simp only [List.map_cons, if_neg hp, dlookup]
      by_cases hpk : p.1 = k'
      · simp [hpk]
      · simp only [if_neg hpk]
        exact ih

theorem dlookup_append_single_self (d : Dict) (k v : Str)
    (h : ∀ p ∈ d, p.1 ≠ k) :
    dlookup (d ++ [(k, v)]) k = some v := by
  induction d with
  | nil => simp [dlookup]
  | cons p rest ih =>
    have hp : p.1 ≠ k := h p (by simp)
    simp only [List.cons_append, dlookup, if_neg hp]
    exact ih (fun q hq => h q (by simp [hq]))

theorem dlookup_append_single_ne (d : Dict) (k v k' : Str) (h : k' ≠ k) :
    dlookup (d ++ [(k, v)]) k' = dlookup d k' := by
  induction d with
  | nil =>
    have h1 : ¬ ((k, v).1 = k') := fun he => h he.symm
    simp [dlookup, h1]
  | cons p rest ih =>
    by_cases hp : p.1 = k'
    · simp [dlookup, hp]
    · simp only [List.cons_append, dlookup, if_neg hp]
      exact ih

theorem any_key_false_not_mem (d : Dict) (k : Str)
    (h : d.any (fun p => p.1 == k) = false) : ∀ p ∈ d, p.1 ≠ k := by
  intro p hp
  simp only [List.any_eq_false, beq_iff_eq] at h
  exact h p hp

theorem dlookup_dinsert_self (d : Dict) (k v : Str) :
    dlookup (dinsert d k v) k = some v := by
  unfold dinsert
  split
  · exact dlookup_map_assign_self d k v (by assumption)
  · apply dlookup_append_single_self
    apply any_key_false_not_mem
    simp only [Bool.not_eq_true] at *
    assumption

theorem dlookup_dinsert_ne (d : Dict) (k v k' : Str) (h : k' ≠ k) :
    dlookup (dinsert d k v) k' = dlookup d k' := by
  unfold dinsert
  split
  · exact dlookup_map_assign_ne d k v k' h
  · exact dlookup_append_single_ne d k v k' h

theorem dkeys_map_assign (d : Dict) (k v : Str) :
    dkeys (d.map (fun p => if p.1 = k then (k, v) else p)) = dkeys d := by
  induction d with
  | nil => rfl
  | cons p rest ih =>
    by_cases hp : p.1 = k
    · simp [dkeys, hp] at ih ⊢
      exact ih
    · simp [dkeys, hp] at ih ⊢
      exact ih

theorem dkeys_append_single (d : Dict) (k v : Str) :
    dkeys (d ++ [(k, v)]) = dkeys d ++ [k] := by
  simp [dkeys]

theorem keysNodup_dinsert (d : Dict) (k v : Str) (h : keysNodup d) :
    keysNodup (dinsert d k v) := by
  unfold dinsert
  split
  · rw [keysNodup, dkeys_map_assign]
    exact h
  · rw [keysNodup, dkeys_append_single]
    have hnm : ∀ p ∈ d, p.1 ≠ k := by
      apply any_key_false_not_mem
      simp only [Bool.not_eq_true] at *
      assumption
    have hk : k ∉ dkeys d := by
      intro hmem
      obtain ⟨p, hp, he⟩ := List.mem_map.mp hmem
      exact hnm p hp he
    have h' : (dkeys d).Nodup := h
    simp [List.nodup_append, h', hk]

theorem keysNodup_dupdate (d : Dict) (entries : List (Str × Str)) (h : keysNodup d) :
    keysNodup (dupdate d entries) := by
  induction entries generalizing d with
  | nil => exact h
  | cons p rest ih => exact ih (dinsert d p.1 p.2) (keysNodup_dinsert d p.1 p.2 h)

theorem dlookup_dupdate_not_mem (d : Dict) (entries : List (Str × Str)) (a : Str)
    (h : a ∉ entries.map (fun p => p.1)) :
    dlookup (dupdate d entries) a = dlookup d a := by
  induction entries generalizing d with
  | nil => rfl
  | cons p rest ih =>
    simp only [List.map_cons, List.mem_cons, not_or] at h
    calc dlookup (dupdate (dinsert d p.1 p.2) rest) a
        = dlookup (dinsert d p.1 p.2) a := ih (dinsert d p.1 p.2) h.2
      _ = dlookup d a := dlookup_dinsert_ne d p.1 p.2 a h.1

theorem dlookup_dupdate_wins (d : Dict) (entries : List (Str × Str)) (a v : Str)
    (hnd : (entries.map (fun p => p.1)).Nodup) (h : dlookup entries a = some v) :
    dlookup (dupdate d entries) a = some v := by
  induction entries generalizing d with
  | nil => simp [dlookup] at h
  | cons p rest ih =>
    simp only [List.map_cons, List.nodup_cons] at hnd
    by_cases hp : p.1 = a
    · have hv : v = p.2 := by
        simp only [dlookup, if_pos hp] at h
        exact (Option.some_inj.mp h).symm
      subst hv
      have hna : a ∉ rest.map (fun q => q.1) := hp ▸ hnd.1
      calc dlookup (dupdate (dinsert d p.1 p.2) rest) a
          = dlookup (dinsert d p.1 p.2) a := dlookup_dupdate_not_mem _ rest a hna
        _ = some p.2 := hp ▸ dlookup_dinsert_self d p.1 p.2
    · simp only [dlookup, if_neg hp] at h
      exact ih (dinsert d p.1 p.2) hnd.2 h

/-! ### Helper lemmas: the anchored NLB regex on interface-built descriptors -/

/-- An interface-derived holder descriptor `"<eni-id> / <description>"` with
an id that starts with `"eni-"` can never match `ENI_NLB_RE`, which is
anchored at `"^ELB net/"`. -/
theorem nlbReMatch_eni_descriptor (id desc : Str)
    (h : startsW (str "eni-") id = true) :
    nlbReMatch (id ++ str " / " ++ desc) = none := by
  cases id with
  | nil =>
    rw [show str "eni-" = 'e' :: str "ni-" from rfl] at h
    simp [startsW] at h
  | cons c cs =>
    rw [show str "eni-" = 'e' :: str "ni-" from rfl] at h
    simp only [startsW, Bool.and_eq_true, beq_iff_eq] at h
    have hc : c = 'e' := h.1.symm
    subst hc
    show nlbReMatch ('e' :: (cs ++ str " / " ++ desc)) = none
    unfold nlbReMatch
    rw [show str "ELB net/" = 'E' :: str "LB net/" from rfl]
    simp [startsW]

/-- Values entering a dict via `dinsert` either were already present or are
the inserted value. -/
theorem mem_dinsert_val (d : Dict) (k v : Str) (q : Str × Str)
    (hq : q ∈ dinsert d k v) : q ∈ d ∨ q.2 = v := by
  unfold dinsert at hq
  split at hq
  · obtain ⟨p, hp, he⟩ := List.mem_map.mp hq
    by_cases hpk : p.1 = k
    · right
      rw [← he]
      simp [hpk]
    · left
      rw [if_neg hpk] at he
      rw [← he]
      exact hp
  · rcases List.mem_append.mp hq with hm | hm
    · exact Or.inl hm
    · right
      simp at hm
      rw [hm]

/-- Folding `dinsert` of a fixed value over an address list preserves a
property of all stored values. -/
theorem foldl_dinsert_val_prop (P : Str → Prop) (v : Str) (hv : P v) :
    ∀ (addrs : List Str) (d : Dict), (∀ q ∈ d, P q.2) →
      ∀ q ∈ addrs.foldl (fun d' ip => dinsert d' ip v) d, P q.2 := by
  intro addrs
  induction addrs with
  | nil => intro d hd q hq; exact hd q hq
  | cons ip rest ih =>
    intro d hd q hq
    refine ih (dinsert d ip v) ?_ q hq
    intro q' hq'
    rcases mem_dinsert_val d ip v q' hq' with hm | hm
    · exact hd q' hm
    · rw [hm]; exact hv

/-- Every value of the `_find_used_eni` holder map is an
`"<eni-id> / <description>"` descriptor, so `ENI_NLB_RE` matches none of
them (when interface ids carry the `eni-` marker, as AWS ids do). -/
theorem findUsedEni_nlbReMatch_none (enis : List Eni) (sid : Str)
    (h : ∀ e ∈ enis, startsW (str "eni-") e.id = true) :
    ∀ q ∈ findUsedEni enis sid, nlbReMatch q.2 = none := by
  unfold findUsedEni
  have aux : ∀ (l : List Eni), (∀ e ∈ l, startsW (str "eni-") e.id = true) →
      ∀ (d : Dict), (∀ q ∈ d, nlbReMatch q.2 = none) →
      ∀ q ∈ l.foldl
        (fun d e => e.privateIps.foldl
          (fun d' ip => dinsert d' ip (e.id ++ str " / " ++ e.description)) d) d,
        nlbReMatch q.2 = none := by
    intro l
    induction l with
    | nil => intro _ d hd q hq; exact hd q hq
    | cons e rest ih =>
      intro hl d hd q hq
      refine ih (fun e' he' => hl e' (by simp [he'])) _ ?_ q hq
      exact foldl_dinsert_val_prop (fun s => nlbReMatch s = none)
        (e.id ++ str " / " ++ e.description)
        (nlbReMatch_eni_descriptor e.id e.description (hl e (by simp)))
        e.privateIps d hd
  refine aux (enis.filter (fun e => e.subnetId == sid)) ?_ [] (by simp)
  intro e he
  exact h e (List.mem_filter.mp he).1

/-! ## Claim theorems -/

/-- C1 (code evaluation at the failing input): on the holder descriptor
`"eni-3 / ELB net/mynlb/abcd1234"`, the classic-ELB rule `ENI_ELB_RE` fires
and captures `"net/mynlb/abcd1234"` — the record is classified as a
Classic/ALB — while `ENI_NLB_RE` does not match at all, so the record is
never classified as a NetworkLoadBalancer with key `"mynlb"`.  This
contradicts the claim that the NLB rule is tried first and wins. -/
theorem claim_c1_nlb_descriptor_misclassified :
    elbReMatch (str "eni-3 / ELB net/mynlb/abcd1234") = some (str "net/mynlb/abcd1234")
      ∧ nlbReMatch (str "eni-3 / ELB net/mynlb/abcd1234") = none := by
  constructor <;> rfl

/-- C2 (counterexample): with an autoscaling-collector error and every other
collector succeeding, `show_subnet_usage` propagates the error — no report is
produced, contradicting the claim. -/
theorem claim_c2_cex_asg_error_aborts :
    showSubnetUsage exSubnet exElbEnis [] (Except.error ()) (Except.ok []) (Except.ok [])
      = Except.error () := rfl

/-- C2 (amended): an NLB- or EKS-collector error is caught (the report is
produced, that kind's counts degrade to zero, the other handlers compute
normally), but an ASG-collector error is not caught and propagates to the
caller, aborting the report. -/
theorem claim_c2_amended_partial_failure :
    (∀ (subnet : SubnetInfo) (enis : List Eni) (ec2Ips : Dict)
        (nlbRes : Except Unit (List Nlb)) (eksRes : Except Unit (List (List (Str × Str)))),
        showSubnetUsage subnet enis ec2Ips (Except.error ()) nlbRes eksRes = Except.error ())
    ∧ (∀ (subnet : SubnetInfo) (enis : List Eni) (ec2Ips : Dict) (asgs : List Asg),
        ∃ r, showSubnetUsage subnet enis ec2Ips (Except.ok asgs)
              (Except.error ()) (Except.error ()) = Except.ok r
          ∧ r.nlb = (0, 0, 0) ∧ r.eksCount = 0
          ∧ r.elb = handleElbs (dupdate (findUsedEni enis subnet.id) ec2Ips) enis subnet.id
          ∧ r.asg = handleAsgs subnet.id (dvalues ec2Ips) asgs) := by
  constructor
  · intro subnet enis ec2Ips nlbRes eksRes
    rfl
  · intro subnet enis ec2Ips asgs
    exact ⟨_, rfl, rfl, rfl, rfl, rfl⟩

/-- C3 (counterexample): with two holder records of one classic ELB and no
other resources, the reported theoretical maximum is `used + 8 = 10`, not the
`used + Σ(additional headroom) = 2 + (8 − 2) = 8` the claim's headroom
reading requires: the per-LB maximum is an absolute cap, already-used ELB
addresses are double counted. -/
theorem claim_c3_cex_total_not_headroom :
    ∃ r, showSubnetUsage exSubnet exElbEnis [] (Except.ok []) (Except.ok []) (Except.ok [])
        = Except.ok r ∧ r.totalMax ≠ specTotalMaxHeadroom r := by
  refine ⟨_, rfl, ?_⟩
  decide

/-- C3 (amended): the reported theoretical maximum total is
`used + elb_max + nlb_max + asg_max`, where the Classic/ALB and NLB maxima
are the fixed constant `ELB_MAX_IPS = 8` per load balancer (an absolute
per-LB cap, independent of current usage), only the ASG maximum is
additional headroom, and managed node groups contribute no term. -/
theorem claim_c3_amended_total_formula :
    ∀ (subnet : SubnetInfo) (enis : List Eni) (ec2Ips : Dict) (asgs : List Asg)
      (lbs : List Nlb) (eksRes : Except Unit (List (List (Str × Str)))),
      ∃ r, showSubnetUsage subnet enis ec2Ips (Except.ok asgs) (Except.ok lbs) eksRes
          = Except.ok r
        ∧ r.totalMax = (r.used : ℤ) + (r.elb.2.2 : ℤ) + (r.nlb.2.2 : ℤ) + r.asg.2.2
        ∧ r.elb.2.2 = ELB_MAX_IPS * r.elb.1
        ∧ r.nlb.2.2 = ELB_MAX_IPS * (nlbRelevant lbs subnet.id).length := by
  intro subnet enis ec2Ips asgs lbs eksRes
  refine ⟨_, rfl, rfl, ?_, ?_⟩
  · exact elbMaxOf_eq _
  · exact nlbMaxOf_eq _

/-- C4: each autoscaling group whose configured subnet list (the split
`VPCZoneIdentifier`) contains the target subnet contributes its in-subnet
member count to `current` and `MaxSize − member count` to `maximum`; other
groups contribute nothing.  The spec's concrete instance (`max_size=5`, two
members, both in-subnet) yields `current=2`, `maximum=3`. -/
theorem claim_c4_asg_contribution :
    (∀ (sid : Str) (ids : List Str) (asgs : List Asg),
      handleAsgs sid ids asgs =
        ((asgs.filter (fun a => (splitOn ',' a.vpcZoneIdentifier).contains sid)).length,
         ((asgs.filter (fun a => (splitOn ',' a.vpcZoneIdentifier).contains sid)).map
            (fun a => ((a.instances.filter (fun i => ids.contains i)).length : ℤ))).sum,
         ((asgs.filter (fun a => (splitOn ',' a.vpcZoneIdentifier).contains sid)).map
            (fun a => (a.maxSize : ℤ) - (a.instances.length : ℤ))).sum))
    ∧ handleAsgs exSid [str "i-1", str "i-2"] [exAsg] = (1, 2, 3) :=
  ⟨handleAsgs_eq, by decide⟩

/-- C5: whenever the collectors succeed, the report is always produced —
drift never raises — and the `DriftDetected` warning is set exactly when the
computed used count differs from `total_usable − authoritative_available`;
in the concrete scenario (59 usable, 50 available per metadata, 2 holder
records) the warning is attached and the report still carries all fields. -/
theorem claim_c5_drift_warning_only :
    (∀ (subnet : SubnetInfo) (enis : List Eni) (ec2Ips : Dict) (asgs : List Asg)
        (nlbRes : Except Unit (List Nlb)) (eksRes : Except Unit (List (List (Str × Str)))),
        ∃ r, showSubnetUsage subnet enis ec2Ips (Except.ok asgs) nlbRes eksRes = Except.ok r
          ∧ r.driftWarning
              = decide ((r.used : ℤ) ≠ (r.totalUsable : ℤ) - (subnet.availIps : ℤ)))
    ∧ ∃ r, showSubnetUsage exSubnet exElbEnis [] (Except.ok []) (Except.ok []) (Except.ok [])
          = Except.ok r
        ∧ r.driftWarning = true := by
  constructor
  · intro subnet enis ec2Ips asgs nlbRes eksRes
    exact ⟨_, rfl, rfl⟩
  · refine ⟨_, rfl, ?_⟩
    decide

/-- C6: for prefix length `p ≤ 27` the usable address pool
`IPNetwork(cidr)[4:-1]` has exactly `2^(32−p) − 5` addresses and is the
ordered block with the first four and the last address removed. -/
theorem claim_c6_address_space_size (base p : Nat) (h : p ≤ 27) :
    (ipsForSubnet base p).length = 2 ^ (32 - p) - 5
      ∧ ipsForSubnet base p = (List.range (2 ^ (32 - p) - 5)).map (fun i => base + 4 + i) := by
  have he := ipsForSubnet_eq base p h
  refine ⟨?_, he⟩
  rw [he]
  simp

/-- C6 witness: the theorem applied to the `/27` block at base 10. -/
theorem claim_c6_witness :
    (ipsForSubnet 10 27).length = 2 ^ (32 - 27) - 5
      ∧ ipsForSubnet 10 27 = (List.range (2 ^ (32 - 27) - 5)).map (fun i => 10 + 4 + i) :=
  claim_c6_address_space_size 10 27 (by decide)

/-- C7: the two holder records `{"eni-1 / ELB myelb", "eni-2 / ELB myelb"}`
yield exactly one Classic/ALB group with `current = 2` and `maximum = 8`;
in general the ELB maximum is the fixed constant `ELB_MAX_IPS = 8` per
distinct load balancer, independent of the current count. -/
theorem claim_c7_elb_fixed_max :
    handleElbs exElbIps exElbEnis exSid = (1, 2, 8)
    ∧ ∀ (ips : Dict) (enis : List Eni) (sid : Str),
        (handleElbs ips enis sid).2.2 = ELB_MAX_IPS * (handleElbs ips enis sid).1 :=
  ⟨by decide, fun ips enis sid => elbMaxOf_eq (elbNames ips)⟩

/-- C8: merging the interface-derived and instance-derived holder maps with
`used_ips.update(...)` keeps the per-address uniqueness invariant, and for an
address present in both maps the instance-derived record wins. -/
theorem claim_c8_merge_instance_wins (eniIps ec2Ips : Dict) (a v1 v2 : Str)
    (h1 : keysNodup eniIps) (h2 : keysNodup ec2Ips)
    (he : dlookup eniIps a = some v1) (hc : dlookup ec2Ips a = some v2) :
    keysNodup (dupdate eniIps ec2Ips) ∧ dlookup (dupdate eniIps ec2Ips) a = some v2 :=
  ⟨keysNodup_dupdate eniIps ec2Ips h1, dlookup_dupdate_wins eniIps ec2Ips a v2 h2 hc⟩

/-- C8 witness: the theorem applied to one-entry interface and instance maps
holding the same address. -/
theorem claim_c8_witness :
    keysNodup [(str "10.0.0.1", str "eni-1 / ELB myelb")]
    ∧ keysNodup [(str "10.0.0.1", str "i-1")]
    ∧ dlookup [(str "10.0.0.1", str "eni-1 / ELB myelb")] (str "10.0.0.1")
        = some (str "eni-1 / ELB myelb")
    ∧ dlookup [(str "10.0.0.1", str "i-1")] (str "10.0.0.1") = some (str "i-1")
    ∧ (keysNodup (dupdate [(str "10.0.0.1", str "eni-1 / ELB myelb")]
          [(str "10.0.0.1", str "i-1")])
        ∧ dlookup (dupdate [(str "10.0.0.1", str "eni-1 / ELB myelb")]
            [(str "10.0.0.1", str "i-1")]) (str "10.0.0.1") = some (str "i-1")) :=
  ⟨by decide, by decide, by decide, by decide,
   claim_c8_merge_instance_wins _ _ (str "10.0.0.1") (str "eni-1 / ELB myelb") (str "i-1")
     (by decide) (by decide) (by decide) (by decide)⟩

/-- C9: the reconciliation and report construction is a pure function of the
frozen collector outputs — two runs over identical inputs produce identical
results. -/
theorem claim_c9_deterministic (s1 s2 : SubnetInfo) (e1 e2 : List Eni) (c1 c2 : Dict)
    (a1 a2 : Except Unit (List Asg)) (n1 n2 : Except Unit (List Nlb))
    (k1 k2 : Except Unit (List (List (Str × Str))))
    (hs : s1 = s2) (he : e1 = e2) (hc : c1 = c2) (ha : a1 = a2) (hn : n1 = n2)
    (hk : k1 = k2) :
    showSubnetUsage s1 e1 c1 a1 n1 k1 = showSubnetUsage s2 e2 c2 a2 n2 k2 := by
  subst hs; subst he; subst hc; subst ha; subst hn; subst hk
  rfl

/-- C9 witness: two runs over the same frozen concrete outputs coincide. -/
theorem claim_c9_witness :
    showSubnetUsage exSubnet exElbEnis [] (Except.ok [exAsg]) (Except.ok [exNlb]) (Except.ok [])
      = showSubnetUsage exSubnet exElbEnis [] (Except.ok [exAsg]) (Except.ok [exNlb])
          (Except.ok []) :=
  claim_c9_deterministic exSubnet exSubnet exElbEnis exElbEnis [] []
    (Except.ok [exAsg]) (Except.ok [exAsg]) (Except.ok [exNlb]) (Except.ok [exNlb])
    (Except.ok []) (Except.ok []) rfl rfl rfl rfl rfl rfl

/-- C10: the anchored `ENI_NLB_RE` never matches any holder record built by
the interface collector (descriptors have the `"<eni-id> / ..."` shape), and
the NLB current count comes solely from the name-substring test over the
holder descriptors, with the fallback of 1 per zone-member NLB with no
matching descriptor. -/
theorem claim_c10_nlb_regex_dead :
    (∀ (enis : List Eni) (sid : Str),
        (∀ e ∈ enis, startsW (str "eni-") e.id = true) →
        ∀ q ∈ findUsedEni enis sid, nlbReMatch q.2 = none)
    ∧ ∀ (ips : Dict) (sid : Str) (lbs : List Nlb),
        (handleNlbs ips sid (Except.ok lbs)).2.1 =
          ((nlbRelevant lbs sid).map
            (fun lb => if nlbCountIps ips lb.name > 0 then nlbCountIps ips lb.name else 1)).sum :=
  ⟨findUsedEni_nlbReMatch_none,
   fun ips sid lbs => nlbCurrOf_eq_sum ips (nlbRelevant lbs sid)⟩

/-- C10 witness: the theorem applied to the concrete interface set (whose
ids carry the `eni-` marker) and to one NLB whose name matches no
descriptor, so the fallback of 1 is used. -/
theorem claim_c10_witness :
    (∀ e ∈ exElbEnis, startsW (str "eni-") e.id = true)
    ∧ nlbReMatch (str "10.0.0.1", str "eni-1 / ELB myelb").2 = none
    ∧ (handleNlbs exElbIps exSid (Except.ok [exNlb])).2.1 = 1 :=
  ⟨by decide,
   claim_c10_nlb_regex_dead.1 exElbEnis exSid (by decide)
     (str "10.0.0.1", str "eni-1 / ELB myelb") (by decide),
   (claim_c10_nlb_regex_dead.2 exElbIps exSid [exNlb]).trans (by decide)⟩

end AwsSubnetUsage
